import Mathlib

/-!
Verification of the SpinoCare federated-learning server core.

This file gives a shallow embedding of the aggregation, conversion and
distribution code of the repository:

* `server_aggregate.py` — `aggregate_npz_files`, `keras_federated_averaging`,
  `convert_keras_to_tflite`, `hybrid_fl_aggregation`;
* `main.py` (python-ml-server) — `get_model_info`, `get_global_model` and the
  `stats` dictionary.

Modelling conventions:

* numpy arrays are modelled flattened: an `NpArray` is a dtype tag together
  with the list of its elements; the flattened length stands for the shape
  (elementwise operations and `np.stack`'s shape check only need this);
* floating-point values are modelled as exact rationals (`ℚ`); float64
  promotion (`astype(np.float64)`) is value-preserving and is modelled as a
  dtype retag;
* an `.npz` file is the ordered association list of its entries, in the
  order of `data.files` (the order the keys were saved in) — Python dicts
  preserve insertion order, and `list(d.keys())` compares in that order;
* raised exceptions are modelled with `Except` result values; functions that
  write files are additionally given a state-passing form in which the state
  is the content of the written file, so that "nothing was written on
  failure" is expressible.
-/

instance {ε α : Type} [DecidableEq ε] [DecidableEq α] : DecidableEq (Except ε α) := fun x y =>
  match x, y with
  | .ok a, .ok b =>
    if h : a = b then .isTrue (congrArg Except.ok h)
    else .isFalse (fun hc => h (Except.ok.inj hc))
  | .ok _, .error _ => .isFalse (fun hc => Except.noConfusion hc)
  | .error _, .ok _ => .isFalse (fun hc => Except.noConfusion hc)
  | .error a, .error b =>
    if h : a = b then .isTrue (congrArg Except.error h)
    else .isFalse (fun hc => h (Except.error.inj hc))

/-- Numpy element dtypes that occur in the aggregation path. -/
inductive Dtype
  | float32
  | float64
  deriving DecidableEq, Repr

/-- A numpy array, modelled flattened: dtype tag plus element list. -/
structure NpArray where
  dtype : Dtype
  data : List ℚ
  deriving DecidableEq, Repr

/-- Contents of one client `.npz` weight file: the ordered key/array entries,
in `data.files` order (`load_npz` builds `{k: data[k] for k in data.files}`). -/
abbrev WeightFile : Type := List (String × NpArray)

/-- The ordered key list of a weight file: `list(d.keys())`. -/
def keyList (d : WeightFile) : List String := d.map Prod.fst

/-- The (key, shape) signature of a weight file, shape standing for the
flattened length.  This is the baseline signature of the spec's data model. -/
def signature (d : WeightFile) : List (String × Nat) :=
  d.map (fun p => (p.1, p.2.data.length))

/-- Placeholder array for a failed dictionary lookup.  `aggregate_npz_files`
only indexes keys that the key-equality check has already guaranteed present,
so this default is never produced on any path the code reaches. -/
def dfltArr : NpArray := ⟨Dtype.float64, []⟩

/-- The array stored under key `k` of file `d` (`d[k]`). -/
def arrOf (d : WeightFile) (k : String) : List ℚ :=
  ((d.lookup k).getD dfltArr).data

/-- Promotion `a.astype(np.float64)`: exact on the modelled values, so only
the dtype tag changes. -/
def astype64 (a : NpArray) : NpArray := ⟨Dtype.float64, a.data⟩

/-- Elementwise arithmetic mean of a list of (flattened) arrays, read off at
the first `len` positions: position `i` holds the sum of the `i`-th elements
divided by the number of arrays.  This is the semantics of
`np.mean(np.stack(arrays, axis=0), axis=0)` on same-shape arrays. -/
def meanData (vals : List (List ℚ)) (len : Nat) : List ℚ :=
  (List.range len).map (fun i =>
    ((vals.map (fun v => v.getD i 0)).sum) / (vals.length : ℚ))

/-- The `np.stack` / `np.mean(axis=0)` composite of `aggregate_npz_files`:
`np.stack` requires all arrays to share a shape (else it raises, modelled
`none`); the mean keeps the common (already promoted) dtype. -/
def stackMean (arrays : List NpArray) : Option NpArray :=
  match arrays with
  | [] => none
  | a :: rest =>
    if rest.all (fun b => b.data.length == a.data.length) then
      some ⟨a.dtype, meanData ((a :: rest).map (fun b => b.data)) a.data.length⟩
    else none

/-- One iteration of the averaging loop: for key `k`,
`arrays = [d[k].astype(np.float64) for d in loaded]` stacked and averaged. -/
def aggKey (loaded : List WeightFile) (k : String) : Option NpArray :=
  stackMean (loaded.map (fun d => astype64 ((d.lookup k).getD dfltArr)))

/-- The averaging loop over the key list, building the `averaged` dict in key
order; the first failing `np.stack` aborts the whole call with nothing saved. -/
def collectKeys (loaded : List WeightFile) : List String → Option WeightFile
  | [] => some []
  | k :: ks =>
    match aggKey loaded k, collectKeys loaded ks with
    | some a, some out => some ((k, a) :: out)
    | _, _ => none

/-- Failure modes of `aggregate_npz_files`, one per distinct `raise` site:
`emptyInput` for `ValueError("No input files provided")`, `keyMismatch` for
`ValueError("Mismatch in keys across uploaded files")`, `stackError` for the
`ValueError` that `np.stack` raises on shape-mismatched arrays. -/
inductive AggError
  | emptyInput
  | keyMismatch
  | stackError
  deriving DecidableEq, Repr

/-- Embedding of `aggregate_npz_files` (server_aggregate.py, lines 17–44),
applied to the already-loaded file contents: rejects an empty input list,
rejects any file whose ordered key list differs from the first file's, then
averages each key's arrays in float64. -/
def aggregate_npz_files (loaded : List WeightFile) : Except AggError WeightFile :=
  match loaded with
  | [] => .error .emptyInput
  | first :: rest =>
    if rest.all (fun d => keyList d == keyList first) then
      match collectKeys (first :: rest) (keyList first) with
      | some out => .ok out
      | none => .error .stackError
    else .error .keyMismatch

/-- State-passing form of `aggregate_npz_files`: the state is the content of
the output `.npz` file (`none` when it was never written).  The single
`np.savez_compressed` happens last, after all computation, so every failure
leaves the output file untouched. -/
def aggregate_npz_files_save (loaded : List WeightFile) (fs : Option WeightFile) :
    Option WeightFile × Except AggError Unit :=
  match aggregate_npz_files loaded with
  | .ok out => (some out, .ok ())
  | .error e => (fs, .error e)

/-- A Keras model, modelled by its parameter content: `model.get_weights()`
as a list of (flattened) parameter arrays. -/
structure KerasModel where
  weights : List (List ℚ)
  deriving DecidableEq, Repr

/-- The files the hybrid pipeline touches: the training-format artifact
(`final_model.keras`) and the inference-format artifact
(`global_model.tflite`), each modelled by its content, `none` when absent. -/
structure FlState where
  keras : Option KerasModel
  tflite : Option (List Nat)
  deriving DecidableEq, Repr

/-- Failure modes of the hybrid pipeline, one per `raise` site: `noClients`
for the empty-input `ValueError`s, `kerasNotFound` for the
`FileNotFoundError` on a missing `.keras` file, `convertFailed` for a
failing `converter.convert()`. -/
inductive PipeError
  | noClients
  | kerasNotFound
  | convertFailed
  deriving DecidableEq, Repr

/-- Embedding of `keras_federated_averaging` (server_aggregate.py, lines
47–84): checks the client list, loads the global model from the training
artifact, and — the merge of client weights being an explicit placeholder in
the source ("we'll keep the model as-is and just re-save it") — saves the
loaded model back unchanged and returns it. -/
def keras_federated_averaging (client_weights_list : List WeightFile) (st : FlState) :
    FlState × Except PipeError KerasModel :=
  if client_weights_list.isEmpty then (st, .error .noClients)
  else
    match st.keras with
    | none => (st, .error .kerasNotFound)
    | some m => ({ st with keras := some m }, .ok m)

/-- Embedding of `convert_keras_to_tflite` (server_aggregate.py, lines
87–120).  The TFLite converter itself is external library code, modelled by
a parameter `conv` that may fail (`converter.convert()` raising); the
`.tflite` file is written only after a successful conversion. -/
def convert_keras_to_tflite (conv : KerasModel → Option (List Nat)) (st : FlState) :
    FlState × Except PipeError (List Nat) :=
  match st.keras with
  | none => (st, .error .kerasNotFound)
  | some m =>
    match conv m with
    | none => (st, .error .convertFailed)
    | some b => ({ st with tflite := some b }, .ok b)

/-- Embedding of `hybrid_fl_aggregation` (server_aggregate.py, lines
123–152), applied to already-loaded client weight files: empty-input check,
then `keras_federated_averaging`, then `convert_keras_to_tflite`, threading
the file-system state through each step. -/
def hybrid_fl_aggregation (conv : KerasModel → Option (List Nat))
    (inputs : List WeightFile) (st : FlState) : FlState × Except PipeError Unit :=
  if inputs.isEmpty then (st, .error .noClients)
  else
    match keras_federated_averaging inputs st with
    | (st1, .error e) => (st1, .error e)
    | (st1, .ok _) =>
      match convert_keras_to_tflite conv st1 with
      | (st2, .error e) => (st2, .error e)
      | (st2, .ok _) => (st2, .ok ())

/-- Result of `GET /model_info` (main.py, lines 215–237): the manifest the
server derives on demand from the current `.tflite` artifact.  `model_hash`
is `hashlib.sha256` of the file bytes, `model_version` is
`str(stats.get("total_aggregations", 0))`, `model_size_bytes` the file size. -/
structure ModelInfo where
  model_hash : List Nat
  model_version : String
  model_size_bytes : Nat
  deriving DecidableEq, Repr

/-- Result of `GET /get_global_model` (main.py, lines 240–263): the artifact
bytes of the `FileResponse` plus its response headers `Model-Version`
(the literal string `"0"` in the source), `Model-Hash` and `Model-Size`. -/
structure TfliteResponse where
  bytes : List Nat
  version_header : String
  hash_header : List Nat
  size_header : String
  deriving DecidableEq, Repr

/-- HTTP-level failures of the two distribution endpoints: both raise
`HTTPException(404)` when the `.tflite` file is absent. -/
inductive HttpError
  | notFound
  deriving DecidableEq, Repr

/-- The server-process state of main.py that the distribution endpoints
read: the current `modic_model.tflite` content and the `stats` dictionary.
`stats` is initialised to `{"total_clients": 0, "server_start_time": ...}`;
the key `"total_aggregations"` is not in it, which the `Option` models, so
`stats.get("total_aggregations", 0)` falls back to its default. -/
structure ServerState where
  tflite : Option (List Nat)
  stats_total_clients : Nat
  stats_total_aggregations : Option Nat
  deriving DecidableEq, Repr

/-- The version number the server reports:
`stats.get("total_aggregations", 0)`. -/
def reportedVersion (st : ServerState) : Nat :=
  st.stats_total_aggregations.getD 0

/-- Embedding of `get_model_info` (main.py, lines 215–237).  `sha256` is the
external `hashlib` digest, modelled as an arbitrary function of the bytes. -/
def get_model_info (sha256 : List Nat → List Nat) (st : ServerState) :
    Except HttpError ModelInfo :=
  match st.tflite with
  | none => .error .notFound
  | some bytes => .ok ⟨sha256 bytes, toString (reportedVersion st), bytes.length⟩

/-- Embedding of `get_global_model` (main.py, lines 240–263): serves the
current `.tflite` bytes with headers `Model-Version: "0"` (hardcoded in the
source), `Model-Hash: sha256(bytes)` and `Model-Size`. -/
def get_global_model (sha256 : List Nat → List Nat) (st : ServerState) :
    Except HttpError TfliteResponse :=
  match st.tflite with
  | none => .error .notFound
  | some bytes => .ok ⟨bytes, "0", sha256 bytes, toString bytes.length⟩

/-- The server state at process start: main.py refuses to start unless the
`.tflite` model file exists (lines 34–36), so the artifact content `b` is
present; `stats` holds `total_clients = 0` and no `"total_aggregations"` key. -/
def initServerState (b : List Nat) : ServerState := ⟨some b, 0, none⟩

/-- Modelled from the spec: the successful-round publish step of the upload
server.  Its code is not under src/ — the deployed main.py has its aggregate
endpoint disabled ("Aggregate endpoint temporarily disabled", line 266) and
only tests and callers of the `/aggregate` endpoint are present — so, per the
spec's Versioning & Integrity Service, a successful round installs the new
inference artifact and "increments the global version counter by exactly 1
per successful publish". -/
def publish_round (newArtifact : List Nat) (st : ServerState) : ServerState :=
  { st with
    tflite := some newArtifact
    stats_total_aggregations := some (reportedVersion st + 1) }

/-- A sequence of successful rounds, publishing the given artifacts in turn. -/
def runRounds (arts : List (List Nat)) (st : ServerState) : ServerState :=
  arts.foldl (fun s a => publish_round a s) st

/-- Failures of the round trigger: below-threshold rejection, or an error
propagated from the aggregation engine. -/
inductive TriggerError
  | insufficientParticipants
  | engine (e : AggError)
  deriving DecidableEq, Repr

/-- Modelled from the spec: the round-trigger operation of the upload server
(its `/aggregate` endpoint is not under src/; only tests and callers are).
Per the spec's Round Coordinator, the transition to `Aggregating` "requires:
buffer size ≥ configured minimum participant threshold" and otherwise the
round is rejected with `InsufficientParticipants`; past the gate it runs the
aggregation engine `aggregate_npz_files` of server_aggregate.py on the
buffered updates, the output-artifact state threaded as in
`aggregate_npz_files_save`. -/
def trigger_round (minClients : Nat) (buffer : List WeightFile)
    (fs : Option WeightFile) : Option WeightFile × Except TriggerError Unit :=
  if buffer.length < minClients then (fs, .error .insufficientParticipants)
  else
    match aggregate_npz_files buffer with
    | .ok out => (some out, .ok ())
    | .error e => (fs, .error (.engine e))

theorem arrOf_length_eq_of_signature_eq {d f : WeightFile}
    (h : signature d = signature f) (k : String) :
    (arrOf d k).length = (arrOf f k).length := by
  induction d generalizing f with
  | nil =>
    cases f with
    | nil => rfl
    | cons q f' => simp [signature] at h
  | cons p d' ih =>
    cases f with
    | nil => simp [signature] at h
    | cons q f' =>
      obtain ⟨k₁, a⟩ := p
      obtain ⟨k₂, b⟩ := q
      simp only [signature, List.map_cons, List.cons.injEq, Prod.mk.injEq] at h
      obtain ⟨⟨hk, hl⟩, ht⟩ := h
      subst hk
      have hsig : signature d' = signature f' := ht
      unfold arrOf
      cases hkk : k == k₁ with
      | true => simp [List.lookup, hkk, hl]
      | false =>
        simp only [List.lookup, hkk]
        exact ih hsig

theorem keyList_eq_signature_map (d : WeightFile) :
    keyList d = (signature d).map Prod.fst := by
  unfold keyList signature
  rw [List.map_map]
  rfl

theorem keyList_eq_of_signature_eq {d f : WeightFile}
    (h : signature d = signature f) : keyList d = keyList f := by
  rw [keyList_eq_signature_map, keyList_eq_signature_map, h]

theorem getD_range_map (v : List ℚ) :
    (List.range v.length).map (fun i => v.getD i 0) = v := by
  induction v with
  | nil => rfl
  | cons x xs ih =>
    rw [List.length_cons, List.range_succ_eq_map, List.map_cons, List.map_map]
    have htail : (List.range xs.length).map ((fun i => (x :: xs).getD i 0) ∘ Nat.succ)
        = (List.range xs.length).map (fun i => xs.getD i 0) := by
      refine List.map_congr_left (fun i _ => ?_)
      simp [List.getD_cons_succ]
    rw [htail, ih]
    rfl

theorem meanData_single (v : List ℚ) : meanData [v] v.length = v := by
  unfold meanData
  have : (List.range v.length).map
      (fun i => (([v].map (fun w => w.getD i 0)).sum) / (([v].length : Nat) : ℚ))
      = (List.range v.length).map (fun i => v.getD i 0) := by
    refine List.map_congr_left (fun i _ => ?_)
    simp
  rw [this, getD_range_map]

theorem meanData_perm {vs₁ vs₂ : List (List ℚ)} (h : vs₁.Perm vs₂) (n : Nat) :
    meanData vs₁ n = meanData vs₂ n := by
  unfold meanData
  refine List.map_congr_left (fun i _ => ?_)
  rw [(h.map (fun v => v.getD i 0)).sum_eq, h.length_eq]

theorem collectKeys_eq_map (loaded : List WeightFile) (w : String → NpArray)
    (ks : List String) (h : ∀ k ∈ ks, aggKey loaded k = some (w k)) :
    collectKeys loaded ks = some (ks.map (fun k => (k, w k))) := by
  induction ks with
  | nil => rfl
  | cons k ks ih =>
    unfold collectKeys
    rw [h k (List.mem_cons_self k ks), ih (fun k' hk' => h k' (List.mem_cons_of_mem _ hk'))]
    rfl

theorem aggKey_eq_of_signature (first : WeightFile) (rest : List WeightFile)
    (s : List (String × Nat)) (hs : ∀ d ∈ first :: rest, signature d = s) (k : String) :
    aggKey (first :: rest) k =
      some ⟨Dtype.float64,
        meanData ((first :: rest).map (fun d => arrOf d k)) (arrOf first k).length⟩ := by
  have hsig : ∀ d ∈ first :: rest, signature d = signature first :=
    fun d hd => (hs d hd).trans (hs first (List.mem_cons_self _ _)).symm
  have hcond : (rest.map (fun d => astype64 ((d.lookup k).getD dfltArr))).all
      (fun b => b.data.length == (astype64 ((first.lookup k).getD dfltArr)).data.length)
      = true := by
    rw [List.all_eq_true]
    intro b hb
    rw [List.mem_map] at hb
    obtain ⟨d, hd, rfl⟩ := hb
    rw [beq_iff_eq]
    exact arrOf_length_eq_of_signature_eq (hsig d (List.mem_cons_of_mem _ hd)) k
  unfold aggKey stackMean
  simp only [List.map_cons, hcond, if_true]
  rw [List.map_map]
  rfl

theorem aggregate_npz_files_ok (first : WeightFile) (rest : List WeightFile)
    (s : List (String × Nat)) (hs : ∀ d ∈ first :: rest, signature d = s) :
    aggregate_npz_files (first :: rest) =
      .ok ((keyList first).map (fun k =>
        (k, ⟨Dtype.float64,
          meanData ((first :: rest).map (fun d => arrOf d k)) (arrOf first k).length⟩))) := by
  have hall : rest.all (fun d => keyList d == keyList first) = true := by
    rw [List.all_eq_true]
    intro d hd
    rw [beq_iff_eq]
    exact keyList_eq_of_signature_eq
      ((hs d (List.mem_cons_of_mem _ hd)).trans (hs first (List.mem_cons_self _ _)).symm)
  unfold aggregate_npz_files
  simp only [hall, if_true]
  rw [collectKeys_eq_map (first :: rest)
    (fun k => ⟨Dtype.float64,
      meanData ((first :: rest).map (fun d => arrOf d k)) (arrOf first k).length⟩)
    (keyList first)
    (fun k _ => aggKey_eq_of_signature first rest s hs k)]

theorem aggregate_cons (first : WeightFile) (rest : List WeightFile) :
    aggregate_npz_files (first :: rest) =
      if rest.all (fun d => keyList d == keyList first) then
        match collectKeys (first :: rest) (keyList first) with
        | some out => .ok out
        | none => .error .stackError
      else .error .keyMismatch := rfl

theorem aggKey_single (f : WeightFile) (k : String) :
    aggKey [f] k = some (astype64 ((f.lookup k).getD dfltArr)) := by
  unfold aggKey stackMean
  simp only [List.map_cons, List.map_nil, List.all_nil, if_true]
  rw [meanData_single]

theorem keyList_map_lookup (f : WeightFile) (hnd : (keyList f).Nodup) :
    (keyList f).map (fun k => (k, astype64 ((f.lookup k).getD dfltArr)))
      = f.map (fun p => (p.1, astype64 p.2)) := by
  induction f with
  | nil => rfl
  | cons p f' ih =>
    obtain ⟨k₁, a⟩ := p
    have hk₁ : k₁ ∉ keyList f' := by
      intro hmem
      exact (List.nodup_cons.mp hnd).1 hmem
    have hnd' : (keyList f').Nodup := (List.nodup_cons.mp hnd).2
    simp only [keyList, List.map_cons] at *
    have hhead : (fun k => (k, astype64 ((((k₁, a) :: f').lookup k).getD dfltArr))) k₁
        = (k₁, astype64 a) := by
      simp [List.lookup]
    have htail : (f'.map Prod.fst).map
          (fun k => (k, astype64 ((((k₁, a) :: f').lookup k).getD dfltArr)))
        = (f'.map Prod.fst).map (fun k => (k, astype64 ((f'.lookup k).getD dfltArr))) := by
      refine List.map_congr_left (fun k hk => ?_)
      have hne : (k == k₁) = false := by
        rw [beq_eq_false_iff_ne]
        intro he
        exact hk₁ (he ▸ hk)
      simp [List.lookup, hne]
    rw [htail, ih hnd']
    have hlk : (List.lookup k₁ ((k₁, a) :: f')).getD dfltArr = a := by
      simp [List.lookup]
    rw [hlk]

theorem aggregate_singleton (f : WeightFile) (hnd : (keyList f).Nodup) :
    aggregate_npz_files [f] = .ok (f.map (fun p => (p.1, astype64 p.2))) := by
  unfold aggregate_npz_files
  simp only [List.all_nil, if_true]
  rw [collectKeys_eq_map [f] (fun k => astype64 ((f.lookup k).getD dfltArr))
    (keyList f) (fun k _ => aggKey_single f k)]
  rw [keyList_map_lookup f hnd]

theorem aggKey_dtype {loaded : List WeightFile} {k : String} {a : NpArray}
    (h : aggKey loaded k = some a) : a.dtype = Dtype.float64 := by
  unfold aggKey stackMean at h
  cases loaded with
  | nil => exact Option.noConfusion h
  | cons d ds =>
    simp only [List.map_cons] at h
    split at h
    · cases h
      rfl
    · exact Option.noConfusion h

theorem collectKeys_dtype {loaded : List WeightFile} {ks : List String}
    {out : WeightFile} (h : collectKeys loaded ks = some out) :
    ∀ p ∈ out, p.2.dtype = Dtype.float64 := by
  induction ks generalizing out with
  | nil =>
    cases h
    intro p hp
    exact absurd hp (List.not_mem_nil p)
  | cons k ks ih =>
    unfold collectKeys at h
    cases hk : aggKey loaded k with
    | none => rw [hk] at h; exact Option.noConfusion h
    | some a =>
      cases hrest : collectKeys loaded ks with
      | none => rw [hk, hrest] at h; exact Option.noConfusion h
      | some out' =>
        rw [hk, hrest] at h
        cases h
        intro p hp
        rcases List.mem_cons.mp hp with hp | hp
        · rw [hp]
          exact aggKey_dtype hk
        · exact ih hrest p hp

theorem aggregate_dtype {loaded : List WeightFile} {out : WeightFile}
    (h : aggregate_npz_files loaded = .ok out) :
    ∀ p ∈ out, p.2.dtype = Dtype.float64 := by
  cases loaded with
  | nil => exact Except.noConfusion h
  | cons first rest =>
    rw [aggregate_cons] at h
    cases hall : rest.all (fun d => keyList d == keyList first) with
    | false =>
      rw [hall] at h
      simp at h
    | true =>
      rw [hall] at h
      simp only [if_true] at h
      cases hc : collectKeys (first :: rest) (keyList first) with
      | none => rw [hc] at h; exact Except.noConfusion h
      | some out' =>
        rw [hc] at h
        cases h
        exact collectKeys_dtype hc

theorem reportedVersion_runRounds (arts : List (List Nat)) (st : ServerState) :
    reportedVersion (runRounds arts st) = reportedVersion st + arts.length := by
  induction arts generalizing st with
  | nil => rfl
  | cons a arts ih =>
    show reportedVersion (runRounds arts (publish_round a st)) = _
    rw [ih]
    show reportedVersion st + 1 + arts.length = _
    rw [List.length_cons]
    omega

/-- Claim C1, counterexample: two client weight files that have the same
keys (the single key `"w"`) but shape-mismatched arrays make
`aggregate_npz_files` raise (the `np.stack` `ValueError`) instead of
succeeding, so "same keys" alone does not make aggregation succeed. -/
theorem c1_same_keys_counterexample :
    keyList [("w", ⟨Dtype.float32, [1, 2]⟩)]
      = keyList [("w", ⟨Dtype.float32, [1, 2, 3]⟩)]
    ∧ aggregate_npz_files
        [[("w", ⟨Dtype.float32, [1, 2]⟩)], [("w", ⟨Dtype.float32, [1, 2, 3]⟩)]]
      = .error AggError.stackError :=
  ⟨by decide, by decide⟩

/-- Claim C1 (amended): for every non-empty list of client weight files that
share a baseline signature (same keys in the same file order, with arrays of
matching shape under each key), aggregation succeeds and, for every key, the
output array is the elementwise arithmetic mean of the corresponding input
arrays (exactly, in the rational value model). -/
theorem c1_aggregate_mean_amended (first : WeightFile) (rest : List WeightFile)
    (s : List (String × Nat)) (hs : ∀ d ∈ first :: rest, signature d = s) :
    aggregate_npz_files (first :: rest) =
      .ok ((keyList first).map (fun k =>
        (k, ⟨Dtype.float64,
          meanData ((first :: rest).map (fun d => arrOf d k)) (arrOf first k).length⟩))) :=
  aggregate_npz_files_ok first rest s hs

/-- Witness for C1's amended theorem at two concrete one-key files. -/
theorem c1_aggregate_mean_amended_witness :
    aggregate_npz_files [[("w", ⟨Dtype.float32, [1, 2]⟩)], [("w", ⟨Dtype.float32, [3, 4]⟩)]]
      = .ok ((keyList [("w", (⟨Dtype.float32, [1, 2]⟩ : NpArray))]).map (fun k =>
        (k, ⟨Dtype.float64,
          meanData (([[("w", (⟨Dtype.float32, [1, 2]⟩ : NpArray))],
              [("w", (⟨Dtype.float32, [3, 4]⟩ : NpArray))]]).map (fun d => arrOf d k))
            (arrOf [("w", (⟨Dtype.float32, [1, 2]⟩ : NpArray))] k).length⟩))) :=
  c1_aggregate_mean_amended [("w", ⟨Dtype.float32, [1, 2]⟩)]
    [[("w", ⟨Dtype.float32, [3, 4]⟩)]] [("w", 2)] (by decide)

/-- Claim C7, counterexample: two files whose key sets are equal (as the
permutation of key lists shows) but listed in different order are rejected
with the key-mismatch error, so equality of key sets does not protect an
input from the key-mismatch rejection. -/
theorem c7_keyset_counterexample :
    (keyList [("b", ⟨Dtype.float32, [2]⟩), ("a", ⟨Dtype.float32, [1]⟩)]).Perm
      (keyList [("a", ⟨Dtype.float32, [1]⟩), ("b", ⟨Dtype.float32, [2]⟩)])
    ∧ aggregate_npz_files
        [[("a", ⟨Dtype.float32, [1]⟩), ("b", ⟨Dtype.float32, [2]⟩)],
         [("b", ⟨Dtype.float32, [2]⟩), ("a", ⟨Dtype.float32, [1]⟩)]]
      = .error AggError.keyMismatch :=
  ⟨by decide, by decide⟩

/-- Claim C7 (amended): aggregation fails with the empty-input error on zero
updates and the output file is not written; it fails with the key-mismatch
error exactly when some input's ordered key list differs from the first
input's (so same key set in a different order is also rejected); on every
failure the output file is untouched; and on inputs sharing a baseline
signature it succeeds and writes the output. -/
theorem c7_error_behavior_amended :
    (∀ fs, aggregate_npz_files_save [] fs = (fs, .error AggError.emptyInput))
    ∧ (∀ (first : WeightFile) (rest : List WeightFile),
        aggregate_npz_files (first :: rest) = .error AggError.keyMismatch
          ↔ ¬ ∀ d ∈ rest, keyList d = keyList first)
    ∧ (∀ loaded fs e, (aggregate_npz_files_save loaded fs).2 = .error e →
        (aggregate_npz_files_save loaded fs).1 = fs)
    ∧ (∀ (first : WeightFile) (rest : List WeightFile) s fs,
        (∀ d ∈ first :: rest, signature d = s) →
        (aggregate_npz_files_save (first :: rest) fs).2 = .ok ()) := by
  refine ⟨fun fs => rfl, ?_, ?_, ?_⟩
  · intro first rest
    by_cases hf : ∀ d ∈ rest, keyList d = keyList first
    · have hall : rest.all (fun d => keyList d == keyList first) = true :=
        List.all_eq_true.mpr (fun d hd => beq_iff_eq.mpr (hf d hd))
      rw [aggregate_cons]
      simp only [hall, if_true]
      constructor
      · intro h
        exfalso
        cases hc : collectKeys (first :: rest) (keyList first) with
        | some out => rw [hc] at h; exact Except.noConfusion h
        | none =>
          rw [hc] at h
          simp at h
      · intro hn
        exact absurd hf hn
    · have hall : rest.all (fun d => keyList d == keyList first) = false := by
        cases hx : rest.all (fun d => keyList d == keyList first) with
        | false => rfl
        | true =>
          exact absurd (fun d hd => beq_iff_eq.mp (List.all_eq_true.mp hx d hd)) hf
      rw [aggregate_cons]
      rw [hall, if_neg Bool.false_ne_true]
      exact ⟨fun _ => hf, fun _ => rfl⟩
  · intro loaded fs e h
    unfold aggregate_npz_files_save at h ⊢
    cases hag : aggregate_npz_files loaded with
    | ok out =>
      rw [hag] at h
      exact Except.noConfusion h
    | error e2 => rfl
  · intro first rest s fs hs
    unfold aggregate_npz_files_save
    rw [aggregate_npz_files_ok first rest s hs]

/-- Witness for C7's amended theorem: each conjunct applied at a concrete
input, hypotheses discharged by evaluation. -/
theorem c7_error_behavior_amended_witness :
    (aggregate_npz_files_save [] none = (none, .error AggError.emptyInput))
    ∧ (aggregate_npz_files
          [[("a", (⟨Dtype.float32, [1]⟩ : NpArray))], [("a", (⟨Dtype.float32, [2]⟩ : NpArray))]]
        = .error AggError.keyMismatch
        ↔ ¬ ∀ d ∈ [[("a", (⟨Dtype.float32, [2]⟩ : NpArray))]],
            keyList d = keyList [("a", (⟨Dtype.float32, [1]⟩ : NpArray))])
    ∧ ((aggregate_npz_files_save [] none).1 = none)
    ∧ ((aggregate_npz_files_save
          [[("a", (⟨Dtype.float32, [1]⟩ : NpArray))], [("a", (⟨Dtype.float32, [2]⟩ : NpArray))]]
          none).2 = .ok ()) :=
  ⟨c7_error_behavior_amended.1 none,
   c7_error_behavior_amended.2.1 _ _,
   c7_error_behavior_amended.2.2.1 [] none AggError.emptyInput rfl,
   c7_error_behavior_amended.2.2.2 _ [[("a", ⟨Dtype.float32, [2]⟩)]] [("a", 1)] none (by decide)⟩

/-- Claim C8 (confirmed): aggregation is order-independent — on any two
permuted lists of client weight files sharing a baseline signature, the
results are identical (in the exact rational value model, so in particular
within any floating-point tolerance). -/
theorem c8_order_independence (l₁ l₂ : List WeightFile) (s : List (String × Nat))
    (hne : l₁ ≠ []) (hperm : l₁.Perm l₂) (hs : ∀ d ∈ l₁, signature d = s) :
    aggregate_npz_files l₁ = aggregate_npz_files l₂ := by
  cases l₁ with
  | nil => exact absurd rfl hne
  | cons f₁ r₁ =>
    cases l₂ with
    | nil =>
      have := hperm.length_eq
      simp at this
    | cons f₂ r₂ =>
      have hs₂ : ∀ d ∈ f₂ :: r₂, signature d = s := fun d hd => hs d (hperm.mem_iff.mpr hd)
      rw [aggregate_npz_files_ok f₁ r₁ s hs, aggregate_npz_files_ok f₂ r₂ s hs₂]
      have hk : keyList f₂ = keyList f₁ :=
        keyList_eq_of_signature_eq ((hs₂ f₂ (List.mem_cons_self _ _)).trans
          (hs f₁ (List.mem_cons_self _ _)).symm)
      rw [hk]
      refine congrArg Except.ok (List.map_congr_left (fun k _ => ?_))
      have hlen : (arrOf f₁ k).length = (arrOf f₂ k).length :=
        arrOf_length_eq_of_signature_eq
          ((hs f₁ (List.mem_cons_self _ _)).trans (hs₂ f₂ (List.mem_cons_self _ _)).symm) k
      rw [meanData_perm (hperm.map (fun d => arrOf d k)) ((arrOf f₁ k).length), hlen]

/-- Witness for C8 at a concrete two-file buffer and its swap. -/
theorem c8_order_independence_witness :
    aggregate_npz_files [[("w", ⟨Dtype.float32, [1]⟩)], [("w", ⟨Dtype.float32, [2]⟩)]]
      = aggregate_npz_files [[("w", ⟨Dtype.float32, [2]⟩)], [("w", ⟨Dtype.float32, [1]⟩)]] :=
  c8_order_independence _ _ [("w", 1)] (by decide) (by decide) (by decide)

/-- Claim C9, counterexample: a float32 input array yields an output array of
dtype float64 — the mean is stored in the promoted precision, not cast back to
the input's working precision. -/
theorem c9_dtype_counterexample :
    aggregate_npz_files [[("w", ⟨Dtype.float32, []⟩)]]
      = .ok [("w", ⟨Dtype.float64, []⟩)]
    ∧ Dtype.float64 ≠ Dtype.float32 :=
  ⟨by decide, by decide⟩

/-- Claim C9 (amended): the summation/mean is computed in the promoted
float64 representation and every array of every successful aggregation output
is stored with dtype float64, whatever the input dtypes were (there is no
cast back to the inputs' working precision). -/
theorem c9_dtype_amended (loaded : List WeightFile) (out : WeightFile)
    (h : aggregate_npz_files loaded = .ok out) :
    ∀ p ∈ out, p.2.dtype = Dtype.float64 :=
  aggregate_dtype h

/-- Witness for C9's amended theorem at a concrete float32 input. -/
theorem c9_dtype_amended_witness :
    ((("w", (⟨Dtype.float64, []⟩ : NpArray))).2).dtype = Dtype.float64 :=
  c9_dtype_amended [[("w", ⟨Dtype.float32, []⟩)]] [("w", ⟨Dtype.float64, []⟩)]
    (by decide) ("w", ⟨Dtype.float64, []⟩) (by decide)

/-- Claim C10 (confirmed): aggregating a single client weight file is the
identity up to precision promotion — the output holds, for every key, exactly
that file's array values, retagged to the promoted dtype. -/
theorem c10_singleton_identity (f : WeightFile) (hnd : (keyList f).Nodup) :
    aggregate_npz_files [f] = .ok (f.map (fun p => (p.1, astype64 p.2))) :=
  aggregate_singleton f hnd

/-- Witness for C10 at a concrete two-key file. -/
theorem c10_singleton_identity_witness :
    aggregate_npz_files [[("a", ⟨Dtype.float32, [1, 2]⟩), ("b", ⟨Dtype.float32, [3]⟩)]]
      = .ok [("a", ⟨Dtype.float64, [1, 2]⟩), ("b", ⟨Dtype.float64, [3]⟩)] :=
  c10_singleton_identity [("a", ⟨Dtype.float32, [1, 2]⟩), ("b", ⟨Dtype.float32, [3]⟩)]
    (by decide)

/-- Claim C6 (confirmed against the spec-modelled round trigger): with
minimum participants 2, triggering with exactly one buffered update fails
with the insufficient-participants error and writes no artifact, while
triggering with two or more schema-consistent buffered updates succeeds and
publishes the averaged output. -/
theorem c6_threshold_gating :
    (∀ (f : WeightFile) fs, trigger_round 2 [f] fs
        = (fs, .error TriggerError.insufficientParticipants))
    ∧ (∀ (first : WeightFile) (rest : List WeightFile) s fs,
        2 ≤ (first :: rest).length →
        (∀ d ∈ first :: rest, signature d = s) →
        trigger_round 2 (first :: rest) fs
          = (some ((keyList first).map (fun k =>
              (k, ⟨Dtype.float64,
                meanData ((first :: rest).map (fun d => arrOf d k))
                  (arrOf first k).length⟩))),
             .ok ())) := by
  constructor
  · intro f fs
    rfl
  · intro first rest s fs hlen hs
    unfold trigger_round
    rw [if_neg (by omega), aggregate_npz_files_ok first rest s hs]

/-- Witness for C6: one buffered update is rejected below the threshold of
2; two schema-consistent updates aggregate successfully. -/
theorem c6_threshold_gating_witness :
    trigger_round 2 [[("w", (⟨Dtype.float32, [1]⟩ : NpArray))]] none
        = (none, .error TriggerError.insufficientParticipants)
    ∧ trigger_round 2
        [[("w", (⟨Dtype.float32, [1]⟩ : NpArray))], [("w", (⟨Dtype.float32, [2]⟩ : NpArray))]]
        none
        = (some ((keyList [("w", (⟨Dtype.float32, [1]⟩ : NpArray))]).map (fun k =>
            (k, ⟨Dtype.float64,
              meanData (([[("w", (⟨Dtype.float32, [1]⟩ : NpArray))],
                  [("w", (⟨Dtype.float32, [2]⟩ : NpArray))]]).map (fun d => arrOf d k))
                (arrOf [("w", (⟨Dtype.float32, [1]⟩ : NpArray))] k).length⟩))),
           .ok ()) :=
  ⟨c6_threshold_gating.1 _ none,
   c6_threshold_gating.2 [("w", ⟨Dtype.float32, [1]⟩)] [[("w", ⟨Dtype.float32, [2]⟩)]]
     [("w", 1)] none (by decide) (by decide)⟩

/-- Claim C5, counterexample: with a single client update for key `"w"` of
value 5 and a previous training artifact with parameters `[[1, 2]]`, the
conversion step returns the previous model unchanged (the state and the
returned model both equal the previous artifact), although the aggregated
weight mapping — the mean of that one update, value 5 — differs from those
parameters, so the output does not reflect the aggregated client updates. -/
theorem c5_merge_counterexample :
    keras_federated_averaging [[("w", ⟨Dtype.float32, [5]⟩)]]
        ⟨some ⟨[[1, 2]]⟩, none⟩
      = (⟨some ⟨[[1, 2]]⟩, none⟩, .ok ⟨[[1, 2]]⟩)
    ∧ aggregate_npz_files [[("w", ⟨Dtype.float32, [5]⟩)]]
      = .ok [("w", astype64 ⟨Dtype.float32, [5]⟩)]
    ∧ (⟨[[1, 2]]⟩ : KerasModel).weights ≠ [[(5 : ℚ)]] := by
  refine ⟨rfl, ?_, by decide⟩
  rw [aggregate_singleton _ (by decide)]
  rfl

/-- Claim C5 (amended): the conversion step ignores the aggregated client
weights — the weight-merge onto the model's parameter structure is a
placeholder in the source — and re-saves the previous training artifact
unchanged: for every non-empty client list it returns the previous model
with the file state unmodified. -/
theorem c5_resave_amended (cw : List WeightFile) (st : FlState) (prev : KerasModel)
    (hne : cw ≠ []) (hk : st.keras = some prev) :
    keras_federated_averaging cw st = (st, .ok prev) := by
  obtain ⟨kf, tf⟩ := st
  have hk' : kf = some prev := hk
  subst hk'
  have hie : cw.isEmpty = false := by
    cases cw with
    | nil => exact absurd rfl hne
    | cons a l => rfl
  simp only [keras_federated_averaging, hie, Bool.false_eq_true, if_false]

/-- Witness for C5's amended theorem at a concrete client update and state. -/
theorem c5_resave_amended_witness :
    keras_federated_averaging [[("w", (⟨Dtype.float32, [5]⟩ : NpArray))]]
        ⟨some ⟨[[1, 2]]⟩, some [9]⟩
      = (⟨some ⟨[[1, 2]]⟩, some [9]⟩, .ok ⟨[[1, 2]]⟩) :=
  c5_resave_amended [[("w", ⟨Dtype.float32, [5]⟩)]] ⟨some ⟨[[1, 2]]⟩, some [9]⟩
    ⟨[[1, 2]]⟩ (by decide) rfl

/-- Claim C4 (confirmed): whenever the hybrid aggregation pipeline fails —
empty input, missing source training artifact, or a failing conversion —
the training-format artifact and the inference-format artifact both still
hold their previous contents: no partial update is visible.  (Artifacts are
modelled by their content; the placeholder merge re-writes the training file
with the very model value just loaded from it.) -/
theorem c4_failure_preserves_artifacts (conv : KerasModel → Option (List Nat))
    (inputs : List WeightFile) (st : FlState) (e : PipeError)
    (h : (hybrid_fl_aggregation conv inputs st).2 = .error e) :
    (hybrid_fl_aggregation conv inputs st).1.keras = st.keras
    ∧ (hybrid_fl_aggregation conv inputs st).1.tflite = st.tflite := by
  suffices hst : (hybrid_fl_aggregation conv inputs st).1 = st by
    rw [hst]
    exact ⟨rfl, rfl⟩
  obtain ⟨kf, tf⟩ := st
  cases inputs with
  | nil => rfl
  | cons i is =>
    cases kf with
    | none => rfl
    | some m =>
      cases hc : conv m with
      | none =>
        simp [hybrid_fl_aggregation, keras_federated_averaging,
          convert_keras_to_tflite, hc]
      | some b =>
        exfalso
        simp [hybrid_fl_aggregation, keras_federated_averaging,
          convert_keras_to_tflite, hc] at h

/-- Witness for C4: a forced conversion failure leaves both artifact files
with their prior contents. -/
theorem c4_failure_preserves_artifacts_witness :
    (hybrid_fl_aggregation (fun _ => none) [[("w", (⟨Dtype.float32, [1]⟩ : NpArray))]]
        ⟨some ⟨[[1]]⟩, some [7]⟩).1.keras = some ⟨[[1]]⟩
    ∧ (hybrid_fl_aggregation (fun _ => none) [[("w", (⟨Dtype.float32, [1]⟩ : NpArray))]]
        ⟨some ⟨[[1]]⟩, some [7]⟩).1.tflite = some [7] :=
  c4_failure_preserves_artifacts (fun _ => none) [[("w", ⟨Dtype.float32, [1]⟩)]]
    ⟨some ⟨[[1]]⟩, some [7]⟩ PipeError.convertFailed rfl

/-- Claim C2 (confirmed): whenever both distribution endpoints succeed on the
same server state, the digest of the artifact bytes served by
`get_global_model` equals the `content_hash` of the manifest served by
`get_model_info`, and the `Model-Hash` response header carries that same
digest — both recompute the hash from the one current artifact file. -/
theorem c2_digest_integrity (sha256 : List Nat → List Nat) (st : ServerState)
    (info : ModelInfo) (resp : TfliteResponse)
    (hm : get_model_info sha256 st = .ok info)
    (ha : get_global_model sha256 st = .ok resp) :
    sha256 resp.bytes = info.model_hash ∧ resp.hash_header = info.model_hash := by
  obtain ⟨tfl, tc, ta⟩ := st
  cases tfl with
  | none => exact Except.noConfusion hm
  | some bytes =>
    rw [← Except.ok.inj hm, ← Except.ok.inj ha]
    exact ⟨rfl, rfl⟩

/-- Witness for C2 with the identity standing in for the digest function. -/
theorem c2_digest_integrity_witness :
    (fun b : List Nat => b) ((⟨[3, 1], "0", [3, 1], "2"⟩ : TfliteResponse)).bytes
        = ((⟨[3, 1], "0", 2⟩ : ModelInfo)).model_hash
    ∧ ((⟨[3, 1], "0", [3, 1], "2"⟩ : TfliteResponse)).hash_header
        = ((⟨[3, 1], "0", 2⟩ : ModelInfo)).model_hash :=
  c2_digest_integrity (fun b => b) ⟨some [3, 1], 0, none⟩ ⟨[3, 1], "0", 2⟩
    ⟨[3, 1], "0", [3, 1], "2"⟩ (by decide) (by decide)

/-- Claim C3, counterexample: after one successful round (K = 1, via the
spec-modelled publish step) the manifest endpoint reports version "1", but
the distribution endpoint's `Model-Version` response header is the hardcoded
"0" — so the version reported by the distribution operation does not equal
K. -/
theorem c3_version_counterexample :
    get_model_info (fun b => b) (runRounds [[9]] (initServerState [0]))
        = .ok ⟨[9], "1", 1⟩
    ∧ get_global_model (fun b => b) (runRounds [[9]] (initServerState [0]))
        = .ok ⟨[9], "0", [9], "1"⟩
    ∧ ("0" : String) ≠ "1" :=
  ⟨by decide, by decide, by decide⟩

/-- Claim C3 (amended): the version counter starts at 0 and each successful
(spec-modelled) publish increments it by exactly 1 — after K successful
rounds the manifest endpoint reports version K, and the counter is never
decremented or reused — but the artifact-download endpoint's `Model-Version`
response header is hardcoded to "0" and does not advance. -/
theorem c3_version_amended (sha256 : List Nat → List Nat) (b : List Nat)
    (arts : List (List Nat)) :
    reportedVersion (runRounds arts (initServerState b)) = arts.length
    ∧ (∀ a st, reportedVersion (publish_round a st) = reportedVersion st + 1)
    ∧ (∀ st info, get_model_info sha256 st = .ok info →
        info.model_version = toString (reportedVersion st))
    ∧ (∀ st resp, get_global_model sha256 st = .ok resp →
        resp.version_header = "0") := by
  refine ⟨?_, ?_, ?_, ?_⟩
  · rw [reportedVersion_runRounds]
    exact Nat.zero_add arts.length
  · intro a st
    rfl
  · intro st info hm
    obtain ⟨tfl, tc, ta⟩ := st
    cases tfl with
    | none => exact Except.noConfusion hm
    | some bytes => rw [← Except.ok.inj hm]
  · intro st resp hr
    obtain ⟨tfl, tc, ta⟩ := st
    cases tfl with
    | none => exact Except.noConfusion hr
    | some bytes => rw [← Except.ok.inj hr]

/-- Witness for C3's amended theorem: two rounds bring the manifest version
to 2; one publish increments by 1; the header stays "0". -/
theorem c3_version_amended_witness :
    reportedVersion (runRounds [[1], [2]] (initServerState [0])) = 2
    ∧ reportedVersion (publish_round [5] (initServerState [0]))
        = reportedVersion (initServerState [0]) + 1
    ∧ ((⟨[7], "0", 1⟩ : ModelInfo)).model_version
        = toString (reportedVersion (initServerState [7]))
    ∧ ((⟨[7], "0", [7], "1"⟩ : TfliteResponse)).version_header = "0" :=
  ⟨(c3_version_amended (fun b => b) [0] [[1], [2]]).1,
   (c3_version_amended (fun b => b) [0] []).2.1 [5] (initServerState [0]),
   (c3_version_amended (fun b => b) [0] []).2.2.1 (initServerState [7])
     ⟨[7], "0", 1⟩ (by decide),
   (c3_version_amended (fun b => b) [0] []).2.2.2 (initServerState [7])
     ⟨[7], "0", [7], "1"⟩ (by decide)⟩
